import Mathlib

/-!
Verification of the worterbuch-explorer websocket session layer
(`src/worterbuch-client/src/ws.rs`) in a shallow embedding.

The file embeds the session-establishment function `connect`, the two
pump tasks spawned by `connected`, the broadcast Event Bus and the
`Connection` handle, and proves the stated properties about them.

External collaborators (the wire codec `read_server_message` /
`encode_message` and the framed websocket transport) are treated as
parameters: the codec is an explicit function argument, the transport's
read side is a list of poll outcomes and its write side is a list of
written frames.
-/

namespace Worterbuch

/-- Raw frame payload bytes (`msg.into_data()` in the source). -/
abbrev Bytes := List Nat

/-- The handshake message's session parameters, as used by `connected`
(`handshake.separator`, `handshake.wildcard`, `handshake.multi_wildcard`). -/
structure Handshake where
  separator : Char
  wildcard : Char
  multi_wildcard : Char
  deriving DecidableEq, Repr

/-- A decoded server message (`ServerMessage` in the source): either the
handshake announcement or some other protocol message, the latter's
richer schema collapsed to an opaque tag. -/
inductive SM where
  | handshake (h : Handshake)
  | other (tag : Nat)
  deriving DecidableEq, Repr

/-- A transport frame as seen through the tungstenite interface:
`is_binary()` and `into_data()`. -/
structure Frame where
  is_binary : Bool
  data : Bytes
  deriving DecidableEq, Repr

/-- One outcome of polling `ws_rx.next().await`, excluding stream
exhaustion: either a frame (`Some(Ok(msg))`) or a transport-level read
error (`Some(Err(e))`).  Stream exhaustion (`None`) is modelled as the
end of the poll list. -/
inductive Poll where
  | frame (f : Frame)
  | readErr
  deriving DecidableEq, Repr

/-- The wire codec's decoding side, `read_server_message`: an external
collaborator.  `Except.error` is a decode error, `Except.ok none` is the
end-of-session sentinel, `Except.ok (some m)` is a decoded message. -/
abbrev Decode := Bytes → Except Unit (Option SM)

/-- The error outcomes of `connect` in `ws.rs`:
transport error (`Some(Err(e))` → `Err(e.into())`),
decode error (propagated by `?` from `read_server_message`),
`HandshakeAborted` (`io::ErrorKind::ConnectionAborted`, "connection
closed before handshake"), and `UnexpectedMessage`
(`io::ErrorKind::InvalidData`, carrying the decoded message). -/
inductive ConnectErr where
  | transport
  | decodeErr
  | handshakeAborted
  | unexpectedMessage (m : SM)
  deriving DecidableEq, Repr

/-- Modelled from the spec: the `Connection` type and its constructor
`Connection::new` live in this repository outside the provided source
(`crate::Connection`); per §6 the Session Handle stores the three
negotiated session parameters and exposes them through the accessors
`separator()`, `wildcard()` and `multi_wildcard()`.  The command
producer and bus handle it also owns are modelled separately by the
pump definitions below. -/
structure Connection where
  separator : Char
  wildcard : Char
  multi_wildcard : Char
  deriving DecidableEq, Repr

/-- `Connection::new` as invoked at the end of `connected`
(ws.rs lines 128–138): the three parameters are copied unchanged out of
the handshake message. -/
def Connection.new (h : Handshake) : Connection :=
  ⟨h.separator, h.wildcard, h.multi_wildcard⟩

/-- Result of a `connect` call: the returned value, whether the two
pump tasks were spawned (`connected` is the only place that spawns
them), and the polls left unconsumed on the transport. -/
structure ConnectResult where
  result : Except ConnectErr Connection
  pumpsSpawned : Bool
  remaining : List Poll
  deriving Repr

/-- The handshake phase of `connect` (ws.rs lines 43–72): one poll of
`ws_rx.next()` is inspected.  `[]` models the read yielding `None`
(stream ended); a read error maps to a transport error; a frame's bytes
are decoded (note: `connect` calls `into_data()` without checking
`is_binary`), a decode error propagates via `?`, a decoded handshake
reaches `connected` (which spawns both pumps and builds the handle),
any other decoded message is `UnexpectedMessage`, and the decoded
end-of-session sentinel is reported as "connection closed before
handshake". -/
def connect (decode : Decode) (polls : List Poll) : ConnectResult :=
  match polls with
  | [] => ⟨.error .handshakeAborted, false, []⟩
  | .readErr :: rest => ⟨.error .transport, false, rest⟩
  | .frame f :: rest =>
    match decode f.data with
    | .error _ => ⟨.error .decodeErr, false, rest⟩
    | .ok (some (.handshake h)) => ⟨.ok (Connection.new h), true, rest⟩
    | .ok (some m) => ⟨.error (.unexpectedMessage m), false, rest⟩
    | .ok none => ⟨.error .handshakeAborted, false, rest⟩

/-- The URL built by `connect` (ws.rs line 36):
`format!("{proto}://{host_addr}:{port}/ws")`. -/
def wsUrl (proto host_addr : String) (port : Nat) : String :=
  proto ++ "://" ++ host_addr ++ ":" ++ toString port ++ "/ws"

/-- Why the Outbound Pump's loop exited (ws.rs lines 87–101):
`encodeFailed` is the `else break` on a failed `encode_message`,
`writeFailed` is the `break` after `ws_tx.send` returns an error, and
`queueClosed` is `cmd_rx.recv()` returning `None` once all senders are
dropped, which ends the `while let`. -/
inductive OutboundStop where
  | encodeFailed
  | writeFailed
  | queueClosed
  deriving DecidableEq, Repr

/-- The Outbound Pump task spawned by `connected` (ws.rs lines 87–101).
The command type and the codec's `encode_message` are parameters
(`none` models an encoding error); the transport's write side is
modelled by `sendOk`, giving the outcome of the `ws_tx.send` for the
command at each submission position, with `i` the position of the next
command.  The result is the list of frames the transport actually
received, in write order, together with the reason the loop exited.
The queue is the submitted command list itself: `mpsc::unbounded_channel`
is FIFO with this task as single consumer, and the list's end models the
queue being closed. -/
def outboundPump {CM : Type} (encode : CM → Option Bytes) (sendOk : Nat → Bool) :
    Nat → List CM → List Bytes × OutboundStop
  | _, [] => ([], .queueClosed)
  | i, c :: rest =>
    match encode c with
    | none => ([], .encodeFailed)
    | some data =>
      if sendOk i then
        let r := outboundPump encode sendOk (i + 1) rest
        (data :: r.1, r.2)
      else ([], .writeFailed)

/-- Whether a poll outcome is the end-of-session sentinel the Inbound
Pump reacts to: a binary frame whose bytes decode to `Ok(None)`
(ws.rs line 114). -/
def isSentinel (decode : Decode) : Poll → Bool
  | .frame f =>
    if f.is_binary then
      match decode f.data with
      | .ok none => true
      | _ => false
    else false
  | .readErr => false

/-- The event, if any, that a poll outcome makes the Inbound Pump
publish to the Event Bus: a binary frame whose bytes decode to
`Ok(Some(msg))` (ws.rs lines 108–113). -/
def eventOf (decode : Decode) : Poll → Option SM
  | .frame f =>
    if f.is_binary then
      match decode f.data with
      | .ok (some m) => some m
      | _ => none
    else none
  | .readErr => none

/-- Observable outcome of running the Inbound Pump over a poll
sequence: the events it forwarded to the Event Bus in order, how many
times it awaited `on_disconnect`, and whether its loop exited
(`break`).  `terminated = false` on an exhausted poll list models the
source's `loop` still polling: `ws_rx.next()` yielding `None` or an
error fails the `if let Some(Ok(..))` pattern and the loop simply
continues (ws.rs line 105). -/
structure InboundRun where
  published : List SM
  disconnectCalls : Nat
  terminated : Bool
  deriving DecidableEq, Repr

/-- The Inbound Pump task spawned by `connected` (ws.rs lines
103–126).  Each poll of `ws_rx.next()` is handled as in the source:
read errors and non-binary frames are skipped, a decoded message is
published (a failed publish is only logged, so it is still recorded
here as forwarded), the sentinel `Ok(None)` awaits `on_disconnect` and
breaks, and a decode error is logged and skipped. -/
def inboundPump (decode : Decode) : List Poll → InboundRun
  | [] => ⟨[], 0, false⟩
  | p :: rest =>
    match p with
    | .readErr => inboundPump decode rest
    | .frame f =>
      if f.is_binary then
        match decode f.data with
        | .ok (some m) =>
          let r := inboundPump decode rest
          ⟨m :: r.published, r.disconnectCalls, r.terminated⟩
        | .ok none => ⟨[], 1, true⟩
        | .error _ => inboundPump decode rest
      else inboundPump decode rest

/-- The receiver-side ownership state of the Event Bus after
`connected` returns.  In the source, the bus and its initial receiver
are created at ws.rs line 41; `result_rx` is moved into the Outbound
Pump task and dropped exactly when that task's loop exits (ws.rs lines
99–100), while `Connection::new` receives only the sender
(`result_tx`, line 134).  `externalRx` counts broadcast receivers
later created from the handle and still alive. -/
structure SessionState where
  outboundDone : Bool
  externalRx : Nat
  deriving DecidableEq, Repr

/-- State right after `connected` returns: the Outbound Pump is
running (so it still owns `result_rx`) and no external subscriber
exists yet. -/
def initialSession : SessionState := ⟨false, 0⟩

/-- Whether the initial receiver `result_rx` is still alive: it lives
exactly as long as the Outbound Pump task has not finished (ws.rs
line 100). -/
def internalRxAlive (s : SessionState) : Bool := !s.outboundDone

/-- Number of live receivers of the Event Bus. -/
def liveReceivers (s : SessionState) : Nat :=
  (if internalRxAlive s then 1 else 0) + s.externalRx

/-- Modelled from the spec: whether `result_tx.send` (ws.rs line 110)
succeeds.  The broadcast channel type is external (tokio); per spec
§4.3/§9 a publish fails exactly when there are zero live
subscribers. -/
def publishOk (s : SessionState) : Bool := liveReceivers s != 0

/-- Events that change the set of live bus receivers during a
session: an external subscription is created from the handle, an
external subscription is dropped, or the Outbound Pump's loop exits
(dropping `result_rx`, ws.rs line 100). -/
inductive SessionStep where
  | subscribe
  | dropSubscription
  | outboundExit
  deriving DecidableEq, Repr

/-- Effect of one session event on the receiver-ownership state. -/
def stepSession (s : SessionState) : SessionStep → SessionState
  | .subscribe => { s with externalRx := s.externalRx + 1 }
  | .dropSubscription => { s with externalRx := s.externalRx - 1 }
  | .outboundExit => { s with outboundDone := true }

/-- Receiver-ownership state after a sequence of session events. -/
def runSession (s : SessionState) (steps : List SessionStep) : SessionState :=
  steps.foldl stepSession s

/-- Modelled from the spec: the Event Bus itself is the external tokio
broadcast channel created with capacity 1000 at ws.rs line 41.  Per
spec §3/§5 it keeps a bounded history of the last `capacity` published
events; `published` records every event ever published, oldest
first. -/
structure Bus where
  capacity : Nat
  published : List SM
  deriving DecidableEq, Repr

/-- Modelled from the spec: a fresh, empty broadcast channel
(`broadcast::channel(1_000)` has capacity 1000). -/
def Bus.new (capacity : Nat) : Bus := ⟨capacity, []⟩

/-- Modelled from the spec: publishing appends the event to the
history (older entries beyond `capacity` are no longer retained for
receivers, see `Bus.recv`). -/
def Bus.publish (b : Bus) (e : SM) : Bus := ⟨b.capacity, b.published ++ [e]⟩

/-- Publishing a sequence of events in order. -/
def Bus.publishAll (b : Bus) (es : List SM) : Bus := es.foldl Bus.publish b

/-- A broadcast receiver: its cursor is the index of the next event it
will receive.  A fresh subscription starts at the current end of the
history, so it observes only future events. -/
structure Receiver where
  cursor : Nat
  deriving DecidableEq, Repr

/-- Modelled from the spec: `subscribe()` returns a receiver that
observes only events published after it was created. -/
def Bus.subscribe (b : Bus) : Receiver := ⟨b.published.length⟩

/-- Modelled from the spec: outcome of one receive on a broadcast
receiver — an event, a lag notification (the receiver fell more than
`capacity` behind and the oldest unseen events were overwritten), or
nothing pending. -/
inductive RecvResult where
  | event (e : SM)
  | lagged
  | empty
  deriving DecidableEq, Repr

/-- Index of the oldest event still retained by the bounded history. -/
def Bus.oldestRetained (b : Bus) : Nat := b.published.length - b.capacity

/-- Modelled from the spec: one receive.  A receiver whose cursor has
fallen below the retained window observes a gap notification and is
moved to the oldest retained event; otherwise it receives the event at
its cursor, if one has been published. -/
def Bus.recv (b : Bus) (r : Receiver) : RecvResult × Receiver :=
  if r.cursor < b.oldestRetained then (.lagged, ⟨b.oldestRetained⟩)
  else
    match b.published[r.cursor]? with
    | some e => (.event e, ⟨r.cursor + 1⟩)
    | none => (.empty, r)

/-- Receive `n` times in sequence on the same bus state. -/
def Bus.drain (b : Bus) (r : Receiver) : Nat → List RecvResult × Receiver
  | 0 => ([], r)
  | n + 1 =>
    let x := b.recv r
    let y := b.drain x.2 n
    (x.1 :: y.1, y.2)

/-- A frame used in concrete runs below. -/
def demoFrame : Frame := ⟨true, [0]⟩

/-- A well-formed frame distinct from `demoFrame`. -/
def demoGoodFrame : Frame := ⟨true, [1]⟩

/-- A codec that decodes every payload to a non-handshake message. -/
def demoDecodeOther : Decode := fun _ => .ok (some (.other 5))

/-- A codec that decodes `[0]` with an error and anything else to the
message `other 7`. -/
def demoDecodeMixed : Decode := fun b =>
  if b = [0] then .error () else .ok (some (.other 7))

/-- A codec that decodes everything to a fixed handshake message. -/
def demoDecodeHandshake : Decode := fun _ =>
  .ok (some (.handshake ⟨'/', '+', '#'⟩))

/-- The bus state after publishing 1001 distinct events on a fresh
capacity-1000 bus (the capacity used at ws.rs line 41). -/
def overflowBus : Bus := Bus.publishAll (Bus.new 1000) ((List.range 1001).map SM.other)

/-- An always-succeeding encoder used in concrete runs below. -/
def demoEncode : Nat → Option Bytes := fun n => some [n]

/-- C1: for every connection attempt, `connect` consumes exactly the
first poll of the transport; an empty stream fails with
`HandshakeAborted`; a first frame decoding to a non-handshake message
fails with `UnexpectedMessage` carrying that message; and every
failure produces no `Connection` and spawns neither pump task. -/
theorem connect_single_read_failure_modes (decode : Decode) (polls : List Poll) :
    (connect decode polls).remaining = polls.tail
    ∧ (polls = [] → (connect decode polls).result = .error .handshakeAborted)
    ∧ (∀ f rest m, polls = .frame f :: rest → decode f.data = .ok (some m) →
        (∀ hs : Handshake, m ≠ .handshake hs) →
        (connect decode polls).result = .error (.unexpectedMessage m))
    ∧ (∀ e, (connect decode polls).result = .error e →
        (connect decode polls).pumpsSpawned = false) := by
  match polls with
  | [] =>
    refine ⟨rfl, fun _ => rfl, ?_, fun e _ => rfl⟩
    intro f rest m hcons
    exact absurd hcons (by simp)
  | .readErr :: rest =>
    refine ⟨rfl, by simp, ?_, fun e _ => rfl⟩
    intro f rest' m hcons
    exact absurd hcons (by simp)
  | .frame f :: rest =>
    cases hdec : decode f.data with
    | error u =>
      refine ⟨by simp [connect, hdec], by simp, ?_, ?_⟩
      · intro f' rest' m hcons hdec' hnot
        obtain ⟨hf, hr⟩ := by simpa using hcons
        subst hf
        rw [hdec] at hdec'
        exact absurd hdec' (by simp)
      · intro e _
        simp [connect, hdec]
    | ok o =>
      match o with
      | none =>
        refine ⟨by simp [connect, hdec], by simp, ?_, ?_⟩
        · intro f' rest' m hcons hdec' hnot
          obtain ⟨hf, hr⟩ := by simpa using hcons
          subst hf
          rw [hdec] at hdec'
          exact absurd hdec' (by simp)
        · intro e _
          simp [connect, hdec]
      | some (.handshake hs) =>
        refine ⟨by simp [connect, hdec], by simp, ?_, ?_⟩
        · intro f' rest' m hcons hdec' hnot
          obtain ⟨hf, hr⟩ := by simpa using hcons
          subst hf
          rw [hdec] at hdec'
          obtain hm := by simpa using hdec'
          exact absurd hm.symm (hnot hs)
        · intro e he
          exact absurd he (by simp [connect, hdec])
      | some (.other t) =>
        refine ⟨by simp [connect, hdec], by simp, ?_, ?_⟩
        · intro f' rest' m hcons hdec' hnot
          obtain ⟨hf, hr⟩ := by simpa using hcons
          subst hf
          rw [hdec] at hdec'
          obtain hm := by simpa using hdec'
          rw [← hm]
          simp [connect, hdec]
        · intro e _
          simp [connect, hdec]

/-- Witness for C1: a concrete stream whose first frame decodes to the
non-handshake message `other 5` makes `connect` fail with
`UnexpectedMessage (other 5)`, spawning no pumps and consuming one
poll. -/
theorem connect_single_read_failure_modes_witness :
    (connect demoDecodeOther [.frame demoFrame]).remaining = []
    ∧ (connect demoDecodeOther [.frame demoFrame]).result
        = .error (.unexpectedMessage (.other 5))
    ∧ (connect demoDecodeOther [.frame demoFrame]).pumpsSpawned = false := by
  obtain ⟨h1, _, h3, h4⟩ :=
    connect_single_read_failure_modes demoDecodeOther [.frame demoFrame]
  have hu := h3 demoFrame [] (.other 5) rfl rfl (fun hs hc => SM.noConfusion hc)
  exact ⟨h1, hu, h4 _ hu⟩

/-- C2: a first frame decoding to a handshake message makes `connect`
succeed, and the returned `Connection` carries exactly the three
session parameters of that handshake message, copied unchanged. -/
theorem connect_handshake_success (decode : Decode) (f : Frame) (rest : List Poll)
    (h : Handshake) (hdec : decode f.data = .ok (some (.handshake h))) :
    (connect decode (.frame f :: rest)).result
        = .ok { separator := h.separator, wildcard := h.wildcard,
                multi_wildcard := h.multi_wildcard }
    ∧ (connect decode (.frame f :: rest)).pumpsSpawned = true := by
  simp [connect, hdec, Connection.new]

/-- Witness for C2: a handshake with separator `/`, single wildcard
`+` and multi wildcard `#` yields a connection exposing exactly those
three values. -/
theorem connect_handshake_success_witness :
    (connect demoDecodeHandshake [.frame demoFrame]).result
        = .ok { separator := '/', wildcard := '+', multi_wildcard := '#' }
    ∧ (connect demoDecodeHandshake [.frame demoFrame]).pumpsSpawned = true :=
  connect_handshake_success demoDecodeHandshake demoFrame [] ⟨'/', '+', '#'⟩ rfl

/-- C10: the endpoint URL handed to `connect_async` is exactly
`{proto}://{host_addr}:{port}/ws`; in particular its path suffix
`/ws` is a fixed constant, independent of all caller inputs. -/
theorem connect_url_path_hardcoded (proto host_addr : String) (port : Nat) :
    wsUrl proto host_addr port
        = proto ++ "://" ++ host_addr ++ ":" ++ toString port ++ "/ws"
    ∧ List.IsSuffix "/ws".data (wsUrl proto host_addr port).data := by
  refine ⟨rfl, ⟨(proto ++ "://" ++ host_addr ++ ":" ++ toString port).data, ?_⟩⟩
  rw [← String.data_append]
  rfl

/-- Witness for C10 at a concrete protocol, host and port. -/
theorem connect_url_path_hardcoded_witness :
    wsUrl "ws" "localhost" 8080 = "ws://localhost:8080/ws"
    ∧ List.IsSuffix "/ws".data (wsUrl "ws" "localhost" 8080).data := by
  obtain ⟨h1, h2⟩ := connect_url_path_hardcoded "ws" "localhost" 8080
  exact ⟨h1.trans (by decide), h2⟩

/-- Closed form of the Inbound Pump's run: it forwards the decoded
events of the polls strictly before the first sentinel, awaits the
disconnect callback once if and only if a sentinel occurs anywhere in
the sequence, and its loop exits exactly then. -/
theorem inboundPump_eq (decode : Decode) (polls : List Poll) :
    inboundPump decode polls =
      ⟨(polls.takeWhile (fun p => !isSentinel decode p)).filterMap (eventOf decode),
       if polls.any (isSentinel decode) then 1 else 0,
       polls.any (isSentinel decode)⟩ := by
  induction polls with
  | nil => rfl
  | cons p rest ih =>
    match p with
    | .readErr =>
      simp only [inboundPump, ih, List.any_cons, isSentinel, List.takeWhile,
        Bool.not_false, List.filterMap, eventOf, Bool.false_or]
    | .frame f =>
      by_cases hb : f.is_binary
      · cases hdec : decode f.data with
        | error u =>
          simp only [inboundPump, hb, if_true, hdec, ih, List.any_cons,
            List.takeWhile, List.filterMap]
          simp [isSentinel, eventOf, hb, hdec]
        | ok o =>
          match o with
          | none =>
            simp only [inboundPump, hb, if_true, hdec, List.any_cons,
              List.takeWhile, List.filterMap]
            simp [isSentinel, hb, hdec]
          | some m =>
            simp only [inboundPump, hb, if_true, hdec, ih, List.any_cons,
              List.takeWhile, List.filterMap]
            simp [isSentinel, eventOf, hb, hdec]
      · simp only [inboundPump, hb, if_false, ih, List.any_cons,
          List.takeWhile, List.filterMap]
        simp [isSentinel, eventOf, hb]

/-- C4: over any inbound poll sequence the disconnect callback is
awaited at most once; it is awaited (exactly once) precisely when some
binary frame decodes to the end-of-session sentinel; the pump's loop
exits exactly then; and the events forwarded to the bus are exactly
those decoded from polls strictly before the first sentinel — read
errors, non-binary frames and undecodable frames never trigger the
callback. -/
theorem inbound_disconnect_exactly_once (decode : Decode) (polls : List Poll) :
    (inboundPump decode polls).disconnectCalls ≤ 1
    ∧ ((inboundPump decode polls).disconnectCalls = 1
        ↔ polls.any (isSentinel decode) = true)
    ∧ (inboundPump decode polls).published
        = (polls.takeWhile (fun p => !isSentinel decode p)).filterMap (eventOf decode)
    ∧ (inboundPump decode polls).terminated = polls.any (isSentinel decode) := by
  rw [inboundPump_eq]
  by_cases h : polls.any (isSentinel decode) <;> simp [h]

/-- C5 counterexample: the transport stream ends (a steady-state read
yields no further frames, here the empty poll sequence) and yet the
Inbound Pump neither terminates nor invokes the disconnect callback —
its loop keeps polling. -/
theorem inbound_stream_end_not_terminating :
    (inboundPump demoDecodeMixed []).disconnectCalls = 0
    ∧ (inboundPump demoDecodeMixed []).terminated = false := by
  exact ⟨rfl, rfl⟩

/-- C5 amended: the Inbound Pump terminates and awaits the disconnect
callback exactly when a binary frame decodes to the end-of-session
sentinel; a read yielding no frame — a transient per-poll error just
like the underlying stream having ended — is swallowed and the loop
keeps polling. -/
theorem inbound_terminates_only_on_sentinel (decode : Decode) (polls : List Poll) :
    ((inboundPump decode polls).terminated = true
        ↔ polls.any (isSentinel decode) = true)
    ∧ ((inboundPump decode polls).disconnectCalls = 1
        ↔ polls.any (isSentinel decode) = true)
    ∧ inboundPump decode (.readErr :: polls) = inboundPump decode polls
    ∧ (polls.all (fun p => !isSentinel decode p)
        → (inboundPump decode polls).terminated = false
          ∧ (inboundPump decode polls).disconnectCalls = 0) := by
  refine ⟨?_, ?_, rfl, ?_⟩
  · rw [inboundPump_eq]
  · rw [inboundPump_eq]
    by_cases h : polls.any (isSentinel decode) <;> simp [h]
  · intro hall
    have h : polls.any (isSentinel decode) = false := by
      simpa [List.all_eq_not_any_not] using hall
    rw [inboundPump_eq, h]
    exact ⟨rfl, rfl⟩

/-- Witness for C5's amended theorem: a sequence consisting of a read
error and a well-formed frame, with the stream then ending, leaves the
pump running with no disconnect call, and the read error is
swallowed. -/
theorem inbound_terminates_only_on_sentinel_witness :
    (inboundPump demoDecodeMixed [.readErr, .frame demoGoodFrame]).terminated = false
    ∧ inboundPump demoDecodeMixed (.readErr :: [.frame demoGoodFrame])
        = inboundPump demoDecodeMixed [.frame demoGoodFrame] := by
  obtain ⟨_, _, hswallow, hall⟩ :=
    inbound_terminates_only_on_sentinel demoDecodeMixed [.readErr, .frame demoGoodFrame]
  exact ⟨(hall (by decide)).1, hswallow⟩

/-- C6: a frame whose bytes fail to decode is fatal during the
handshake — `connect` propagates the decode error and produces no
session, spawning no pumps — while during steady-state inbound
processing the same frame is skipped and the pump's run continues
exactly as if the frame had not occurred (so a later well-formed event
is still delivered). -/
theorem decode_error_fatal_in_handshake_only (decode : Decode) (f : Frame)
    (rest polls : List Poll) (hbad : decode f.data = .error ())
    (hbin : f.is_binary = true) :
    (connect decode (.frame f :: rest)).result = .error .decodeErr
    ∧ (connect decode (.frame f :: rest)).pumpsSpawned = false
    ∧ inboundPump decode (.frame f :: polls) = inboundPump decode polls := by
  refine ⟨by simp [connect, hbad], by simp [connect, hbad], ?_⟩
  simp [inboundPump, hbin, hbad]

/-- Witness for C6: with a codec failing on payload `[0]` and decoding
payload `[1]` to the message `other 7`, `connect` aborts on the bad
frame, while the Inbound Pump skips it and still delivers the later
well-formed event. -/
theorem decode_error_fatal_in_handshake_only_witness :
    (connect demoDecodeMixed [.frame demoFrame]).result = .error .decodeErr
    ∧ inboundPump demoDecodeMixed [.frame demoFrame, .frame demoGoodFrame]
        = ⟨[.other 7], 0, false⟩ := by
  obtain ⟨h1, _, h3⟩ :=
    decode_error_fatal_in_handshake_only demoDecodeMixed demoFrame []
      [.frame demoGoodFrame] rfl rfl
  refine ⟨h1, ?_⟩
  rw [h3]
  decide

/-- As long as the Outbound Pump has not exited, the session state's
`outboundDone` flag stays as it started. -/
theorem runSession_outboundDone (steps : List SessionStep) :
    ∀ s : SessionState, SessionStep.outboundExit ∉ steps →
      (runSession s steps).outboundDone = s.outboundDone := by
  induction steps with
  | nil => intro s _; rfl
  | cons st rest ih =>
    intro s hmem
    have hst : st ≠ .outboundExit := fun h => hmem (h ▸ List.mem_cons_self _ _)
    have hrest : SessionStep.outboundExit ∉ rest :=
      fun h => hmem (List.mem_cons_of_mem _ h)
    have hrun : runSession s (st :: rest) = runSession (stepSession s st) rest := rfl
    rw [hrun, ih (stepSession s st) hrest]
    cases st with
    | subscribe => rfl
    | dropSubscription => rfl
    | outboundExit => exact absurd rfl hst

/-- C3 counterexample: immediately after the Outbound Pump's loop
exits (dropping `result_rx`, ws.rs line 100), with no external
subscriber yet created, the Event Bus has zero live receivers and a
publish fails — refuting that the bus keeps a receiver regardless of
whether the Outbound Pump has terminated. -/
theorem bus_zero_receivers_after_outbound_exit :
    liveReceivers (runSession initialSession [SessionStep.outboundExit]) = 0
    ∧ publishOk (runSession initialSession [SessionStep.outboundExit]) = false := by
  decide

/-- C3 amended: the internal bus subscription (`result_rx`) is held by
the Outbound Pump task — not the Session Handle — and lives exactly
until that pump exits.  While the Outbound Pump is running the bus
retains at least one live receiver and publishing never fails for lack
of subscribers; a publish can fail only once the Outbound Pump has
terminated and no external subscriber is alive. -/
theorem bus_alive_while_outbound_running (steps : List SessionStep)
    (h : SessionStep.outboundExit ∉ steps) :
    internalRxAlive (runSession initialSession steps) = true
    ∧ 0 < liveReceivers (runSession initialSession steps)
    ∧ publishOk (runSession initialSession steps) = true
    ∧ ∀ s : SessionState, publishOk s = false
        → s.outboundDone = true ∧ s.externalRx = 0 := by
  have hdone : (runSession initialSession steps).outboundDone = false :=
    runSession_outboundDone steps initialSession h
  refine ⟨by simp [internalRxAlive, hdone], ?_, ?_, ?_⟩
  · simp [liveReceivers, internalRxAlive, hdone]
  · simp [publishOk, liveReceivers, internalRxAlive, hdone]
  · intro s hpub
    rcases s with ⟨done, ext⟩
    cases done <;> simp_all [publishOk, liveReceivers, internalRxAlive]

/-- Witness for C3's amended theorem: after creating and dropping one
external subscription, with the Outbound Pump still running, the bus
still has a live receiver and publishing succeeds. -/
theorem bus_alive_while_outbound_running_witness :
    internalRxAlive (runSession initialSession
        [SessionStep.subscribe, SessionStep.dropSubscription]) = true
    ∧ publishOk (runSession initialSession
        [SessionStep.subscribe, SessionStep.dropSubscription]) = true := by
  obtain ⟨h1, _, h3, _⟩ := bus_alive_while_outbound_running
    [SessionStep.subscribe, SessionStep.dropSubscription] (by decide)
  exact ⟨h1, h3⟩

/-- When every encoding and every transport write succeeds, the
Outbound Pump drains the whole queue: the transport receives exactly
the encodings of all submitted commands in submission order, and the
pump then exits cleanly on queue closure. -/
theorem outboundPump_all_ok {CM : Type} (encode : CM → Option Bytes)
    (sendOk : Nat → Bool) (cmds : List CM) :
    ∀ i : Nat, (∀ c ∈ cmds, (encode c).isSome = true) → (∀ j, sendOk j = true) →
      List.Forall₂ (fun c b => encode c = some b) cmds
        (outboundPump encode sendOk i cmds).1
      ∧ (outboundPump encode sendOk i cmds).2 = .queueClosed := by
  induction cmds with
  | nil => intro i _ _; exact ⟨List.Forall₂.nil, rfl⟩
  | cons c rest ih =>
    intro i henc hsend
    obtain ⟨d, hd⟩ := Option.isSome_iff_exists.mp (henc c (List.mem_cons_self _ _))
    have hrest := ih (i + 1) (fun c' hc' => henc c' (List.mem_cons_of_mem _ hc')) hsend
    simp only [outboundPump, hd, hsend i, if_true]
    exact ⟨List.Forall₂.cons hd hrest.1, hrest.2⟩

/-- Every run of the Outbound Pump splits the queue into a fully
transmitted prefix and an untouched remainder, and exits for one of
exactly three reasons, determined at the first command of the
remainder: queue closure (remainder empty), an encoding failure, or a
write failure. -/
theorem outboundPump_cases {CM : Type} (encode : CM → Option Bytes)
    (sendOk : Nat → Bool) (cmds : List CM) :
    ∀ i : Nat, ∃ pre post,
      cmds = pre ++ post
      ∧ List.Forall₂ (fun c b => encode c = some b) pre
          (outboundPump encode sendOk i cmds).1
      ∧ (∀ j, j < pre.length → sendOk (i + j) = true)
      ∧ ((post = [] ∧ (outboundPump encode sendOk i cmds).2 = .queueClosed)
         ∨ (∃ c post2, post = c :: post2 ∧ encode c = none
             ∧ (outboundPump encode sendOk i cmds).2 = .encodeFailed)
         ∨ (∃ c post2 d, post = c :: post2 ∧ encode c = some d
             ∧ sendOk (i + pre.length) = false
             ∧ (outboundPump encode sendOk i cmds).2 = .writeFailed)) := by
  induction cmds with
  | nil =>
    intro i
    exact ⟨[], [], rfl, List.Forall₂.nil, by simp, Or.inl ⟨rfl, rfl⟩⟩
  | cons c rest ih =>
    intro i
    cases hd : encode c with
    | none =>
      refine ⟨[], c :: rest, rfl, ?_, by simp,
        Or.inr (Or.inl ⟨c, rest, rfl, hd, ?_⟩)⟩
      · simp [outboundPump, hd]
      · simp [outboundPump, hd]
    | some d =>
      cases hs : sendOk i with
      | false =>
        refine ⟨[], c :: rest, rfl, ?_, by simp,
          Or.inr (Or.inr ⟨c, rest, d, rfl, hd, ?_, ?_⟩)⟩
        · simp [outboundPump, hd, hs]
        · simpa using hs
        · simp [outboundPump, hd, hs]
      | true =>
        obtain ⟨pre, post, hsplit, hfa, hsends, hcase⟩ := ih (i + 1)
        have hstop : (outboundPump encode sendOk i (c :: rest)).2
            = (outboundPump encode sendOk (i + 1) rest).2 := by
          simp [outboundPump, hd, hs]
        refine ⟨c :: pre, post, by simp [hsplit], ?_, ?_, ?_⟩
        · simp only [outboundPump, hd, hs, if_true]
          exact List.Forall₂.cons hd hfa
        · intro j hj
          cases j with
          | zero => simpa using hs
          | succ j' =>
            have hidx : i + (j' + 1) = (i + 1) + j' := by omega
            rw [hidx]
            exact hsends j' (by simpa using hj)
        · rcases hcase with ⟨hpost, hq⟩ | ⟨c2, post2, hp, he, hq⟩
            | ⟨c2, post2, d2, hp, he, hsf, hq⟩
          · exact Or.inl ⟨hpost, hstop.trans hq⟩
          · exact Or.inr (Or.inl ⟨c2, post2, hp, he, hstop.trans hq⟩)
          · refine Or.inr (Or.inr ⟨c2, post2, d2, hp, he, ?_, hstop.trans hq⟩)
            have hidx : i + (c :: pre).length = (i + 1) + pre.length := by
              simp [List.length_cons]
              omega
            rw [hidx]
            exact hsf

/-- C7: the Outbound Pump terminates in exactly three cases: it
transmits the encodings of a prefix of the submitted commands and then
exits either cleanly on queue closure (nothing left), or immediately
when encoding the next command fails (that command is never written),
or when writing the next command's frame fails (no retry and no
re-queuing: the failed frame and everything after it never reach the
transport). -/
theorem outbound_pump_termination_cases {CM : Type} (encode : CM → Option Bytes)
    (sendOk : Nat → Bool) (cmds : List CM) :
    ∃ pre post,
      cmds = pre ++ post
      ∧ List.Forall₂ (fun c b => encode c = some b) pre
          (outboundPump encode sendOk 0 cmds).1
      ∧ (∀ j, j < pre.length → sendOk j = true)
      ∧ ((post = [] ∧ (outboundPump encode sendOk 0 cmds).2 = .queueClosed)
         ∨ (∃ c post2, post = c :: post2 ∧ encode c = none
             ∧ (outboundPump encode sendOk 0 cmds).2 = .encodeFailed)
         ∨ (∃ c post2 d, post = c :: post2 ∧ encode c = some d
             ∧ sendOk pre.length = false
             ∧ (outboundPump encode sendOk 0 cmds).2 = .writeFailed)) := by
  obtain ⟨pre, post, h1, h2, h3, h4⟩ := outboundPump_cases encode sendOk cmds 0
  refine ⟨pre, post, h1, h2, fun j hj => by simpa using h3 j hj, ?_⟩
  rcases h4 with hq | he | ⟨c2, post2, d2, hp, he, hsf, hq⟩
  · exact Or.inl hq
  · exact Or.inr (Or.inl he)
  · exact Or.inr (Or.inr ⟨c2, post2, d2, hp, he, by simpa using hsf, hq⟩)

/-- C8: FIFO order — while the Outbound Pump keeps running (no encode
or write failure occurs), the transport receives the encodings of the
submitted commands C1..Cn in exactly submission order, the unbounded
queue being drained by this single consumer one command at a time. -/
theorem outbound_fifo_order {CM : Type} (encode : CM → Option Bytes)
    (sendOk : Nat → Bool) (cmds : List CM)
    (henc : ∀ c ∈ cmds, (encode c).isSome = true)
    (hsend : ∀ j, sendOk j = true) :
    List.Forall₂ (fun c b => encode c = some b) cmds
      (outboundPump encode sendOk 0 cmds).1
    ∧ (outboundPump encode sendOk 0 cmds).2 = .queueClosed :=
  outboundPump_all_ok encode sendOk cmds 0 henc hsend

/-- Witness for C8 on a concrete command sequence: the three commands
come out encoded, in submission order, and the pump then exits on
queue closure. -/
theorem outbound_fifo_order_witness :
    List.Forall₂ (fun c b => demoEncode c = some b) [3, 1, 2]
      (outboundPump demoEncode (fun _ => true) 0 [3, 1, 2]).1
    ∧ (outboundPump demoEncode (fun _ => true) 0 [3, 1, 2]).2 = .queueClosed :=
  outbound_fifo_order demoEncode (fun _ => true) [3, 1, 2] (by decide) (fun _ => rfl)

/-- Publishing a list of events appends it to the bus history. -/
theorem Bus.publishAll_eq (es : List SM) : ∀ b : Bus,
    Bus.publishAll b es = ⟨b.capacity, b.published ++ es⟩ := by
  induction es with
  | nil => intro b; simp [Bus.publishAll]
  | cons e rest ih =>
    intro b
    have h : Bus.publishAll b (e :: rest) = Bus.publishAll (b.publish e) rest := rfl
    rw [h, ih]
    simp [Bus.publish]

/-- A receiver still inside the retained window, positioned at the
start of a suffix of the history, receives exactly that suffix in
order. -/
theorem Bus.drain_events (b : Bus) (es : List SM) : ∀ k : Nat,
    b.published.length = k + es.length →
    b.published.length ≤ k + b.capacity →
    (∀ i, i < es.length → b.published[k + i]? = es[i]?) →
    (b.drain ⟨k⟩ es.length).1 = es.map RecvResult.event := by
  induction es with
  | nil => intro k _ _ _; rfl
  | cons e rest ih =>
    intro k hk hcap hget
    have hk2 : b.published.length = k + rest.length + 1 := by
      rw [hk, List.length_cons]
      omega
    have hnotlag : ¬ (k < b.oldestRetained) := by
      simp only [Bus.oldestRetained]
      omega
    have hgetk : b.published[k]? = some e := by
      have h0 := hget 0 (by simp)
      simpa using h0
    have hrecv : b.recv ⟨k⟩ = (.event e, ⟨k + 1⟩) := by
      simp [Bus.recv, hnotlag, hgetk]
    have hdrain : b.drain ⟨k⟩ (e :: rest).length
        = ((b.recv ⟨k⟩).1 :: (b.drain (b.recv ⟨k⟩).2 rest.length).1,
           (b.drain (b.recv ⟨k⟩).2 rest.length).2) := rfl
    rw [hdrain, hrecv]
    have htail := ih (k + 1) (by omega) (by omega) ?_
    · simp [htail]
    · intro i hi
      have h1 := hget (i + 1) (by simpa using Nat.succ_lt_succ hi)
      have hidx : k + (i + 1) = (k + 1) + i := by omega
      rw [hidx] at h1
      simpa using h1

/-- A successful receive yields exactly the history entry at the
receiver's cursor and advances the cursor by one. -/
theorem Bus.recv_event_index (b : Bus) (r : Receiver) (e : SM) (r2 : Receiver)
    (h : b.recv r = (.event e, r2)) :
    b.published[r.cursor]? = some e ∧ r2.cursor = r.cursor + 1 := by
  by_cases hl : r.cursor < b.oldestRetained
  · simp [Bus.recv, hl] at h
  · cases hg : b.published[r.cursor]? with
    | none => simp [Bus.recv, hl, hg] at h
    | some e2 =>
      simp [Bus.recv, hl, hg] at h
      obtain ⟨he, hr⟩ := h
      subst he
      exact ⟨rfl, by rw [← hr]⟩

/-- A receiver's cursor never moves backwards. -/
theorem Bus.recv_cursor_mono (b : Bus) (r : Receiver) :
    r.cursor ≤ ((b.recv r).2).cursor := by
  by_cases hl : r.cursor < b.oldestRetained
  · simp only [Bus.recv, hl, if_true]
    omega
  · cases hg : b.published[r.cursor]? with
    | none => simp [Bus.recv, hl, hg]
    | some e =>
      simp only [Bus.recv, hl, if_false, hg]
      omega

/-- C9 counterexample: on the capacity-1000 bus of the source, a
subscriber created before any event is published, with 1001 events
E1..E1001 then published, does not receive E1 first: its first receive
is a lag notification, and its cursor is moved to index 1, past E1
(which sits at index 0) — so E1, though published after the
subscription, is never delivered to it. -/
theorem broadcast_overflow_drops_first_event :
    overflowBus.published.length = 1001
    ∧ (overflowBus.recv (Bus.subscribe (Bus.new 1000))).1 = RecvResult.lagged
    ∧ ((overflowBus.recv (Bus.subscribe (Bus.new 1000))).2).cursor = 1
    ∧ overflowBus.published[0]? = some (SM.other 0) := by
  have hbus : overflowBus = ⟨1000, (List.range 1001).map SM.other⟩ := by
    rw [overflowBus, Bus.publishAll_eq]
    simp [Bus.new]
  have hlen : overflowBus.published.length = 1001 := by
    rw [hbus]
    simp
  have hsub : Bus.subscribe (Bus.new 1000) = ⟨0⟩ := rfl
  have hcap : overflowBus.capacity = 1000 := by rw [hbus]
  have hold : overflowBus.oldestRetained = 1 := by
    rw [Bus.oldestRetained, hlen, hcap]
  have hrecv : overflowBus.recv ⟨0⟩ = (.lagged, ⟨1⟩) := by
    rw [Bus.recv, hold]
    simp
  refine ⟨hlen, ?_, ?_, ?_⟩
  · rw [hsub, hrecv]
  · rw [hsub, hrecv]
  · rw [hbus]
    simp [List.getElem?_map]

/-- C9 amended: a subscriber created before E1, with E1..Em then
published, receives E1..Em in that order provided it does not fall
more than the bus capacity (1000 in the source) behind — here, m ≤
capacity when it reads after the publishes; a subscriber that falls
further behind observes a lag notification and misses the oldest
events.  A subscriber created after Ei was published never receives
Ei: its cursor starts at the publication count, never decreases, and
every delivered event comes from the history entry at the current
cursor. -/
theorem broadcast_order_and_no_replay (b : Bus) (es : List SM)
    (hlen : es.length ≤ b.capacity) :
    (Bus.drain (Bus.publishAll b es) (Bus.subscribe b) es.length).1
        = es.map RecvResult.event
    ∧ (∀ (b2 : Bus) (r : Receiver) (e : SM) (r2 : Receiver),
        b2.recv r = (.event e, r2)
        → b2.published[r.cursor]? = some e ∧ r2.cursor = r.cursor + 1)
    ∧ (∀ (b2 : Bus) (r : Receiver), r.cursor ≤ ((b2.recv r).2).cursor)
    ∧ ∀ b2 : Bus, (Bus.subscribe b2).cursor = b2.published.length := by
  refine ⟨?_, Bus.recv_event_index, Bus.recv_cursor_mono, fun _ => rfl⟩
  rw [Bus.publishAll_eq]
  have hsub : Bus.subscribe b = ⟨b.published.length⟩ := rfl
  rw [hsub]
  apply Bus.drain_events
  · simp
  · simp only [List.length_append]
    omega
  · intro i hi
    show (b.published ++ es)[b.published.length + i]? = es[i]?
    rw [List.getElem?_append_right (by omega)]
    congr 1
    omega

/-- Witness for C9's amended theorem: a fresh subscriber on the
capacity-1000 bus, with two events then published, receives exactly
those two events in order. -/
theorem broadcast_order_and_no_replay_witness :
    (Bus.drain (Bus.publishAll (Bus.new 1000) [SM.other 0, SM.other 1])
        (Bus.subscribe (Bus.new 1000)) 2).1
      = [RecvResult.event (SM.other 0), RecvResult.event (SM.other 1)]
    ∧ (Bus.subscribe (Bus.new 1000)).cursor = 0 := by
  obtain ⟨h1, _, _, h4⟩ :=
    broadcast_order_and_no_replay (Bus.new 1000) [SM.other 0, SM.other 1] (by decide)
  exact ⟨h1, h4 (Bus.new 1000)⟩

end Worterbuch
